import Mathlib

/-
Verification of the EPL-predictions data-ingestion pipeline.

Shallow embedding of the pipeline code:
  - src/pipelines/utils/helpers.py          (parse_match_date)
  - src/pipelines/hooks.py                  (retry_handler)
  - src/pipelines/data_ingestion/data_ingestion_common_tasks.py
      (get_current_season, _clean_data, load_data_to_db)
  - src/pipelines/data_ingestion/data_ingestion_local.py
      (load_data_to_db, the string-interpolating variant)

DataFrames are modelled as a list of column names plus rows of cell
values; pandas Timestamps as a calendar date record restricted to the
pandas Timestamp range; Python exceptions as an error type threaded
through Except.  All definitions are executable and structurally
recursive so that concrete runs evaluate inside the kernel.
-/

namespace EPL

/-! ## Calendar dates (pandas Timestamp model) -/

structure Date where
  year : Nat
  month : Nat
  day : Nat
deriving DecidableEq, Repr

def isLeap (y : Nat) : Bool :=
  (y % 4 == 0 && y % 100 != 0) || (y % 400 == 0)

def daysInMonth (y m : Nat) : Nat :=
  if m = 2 then (if isLeap y then 29 else 28)
  else if m = 4 || m = 6 || m = 9 || m = 11 then 30
  else 31

def validDate (y m d : Nat) : Bool :=
  1 ≤ y && y ≤ 9999 && 1 ≤ m && m ≤ 12 && 1 ≤ d && d ≤ daysInMonth y m

-- pandas Timestamps are 64-bit nanosecond counts: midnight of a day is
-- representable exactly for dates from 1677-09-22 through 2262-04-11.
def tsInBounds (y m d : Nat) : Bool :=
  (1677 < y || (y = 1677 && (9 < m || (m = 9 && 22 ≤ d)))) &&
  (y < 2262 || (y = 2262 && (m < 4 || (m = 4 && d ≤ 11))))

def dateOK (dt : Date) : Bool :=
  validDate dt.year dt.month dt.day && tsInBounds dt.year dt.month dt.day

/-! ## Python exceptions -/

inductive PyErr where
  | valueError (msg : String)
  | parserError (msg : String)
  | keyError (msg : String)
  | dbError
  | otherError
deriving DecidableEq, Repr

-- the except-clause of helpers.py catches (ParserError, ValueError)
def caughtByDateLoop : PyErr → Bool
  | .valueError _ => true
  | .parserError _ => true
  | _ => false

/-! ## parse_match_date (src/pipelines/utils/helpers.py)

`pd.to_datetime(s, format=...)` is modelled per format: split the
string on the separator, read the numeric fields, and require the
result to be a valid calendar date inside the Timestamp range
(out-of-range dates raise OutOfBoundsDatetime, a ValueError subclass).
-/

def splitOnChar (sep : Char) : List Char → List (List Char)
  | [] => [[]]
  | c :: cs =>
    if c = sep then [] :: splitOnChar sep cs
    else
      match splitOnChar sep cs with
      | t :: ts => (c :: t) :: ts
      | [] => [[c]]

def allDigits (t : List Char) : Bool :=
  !t.isEmpty && t.all (fun c => c.isDigit)

def digitsToNat (t : List Char) : Nat :=
  t.foldl (fun a c => a * 10 + (c.toNat - 48)) 0

-- day field: 1 or 2 digits
def readDayTok (t : List Char) : Except PyErr Nat :=
  if allDigits t && t.length ≤ 2 then .ok (digitsToNat t)
  else .error (.valueError "unconverted day field")

-- month field: 1 or 2 digits
def readMonthTok (t : List Char) : Except PyErr Nat :=
  if allDigits t && t.length ≤ 2 then .ok (digitsToNat t)
  else .error (.valueError "unconverted month field")

-- %Y field: up to 4 digits
def readY4Tok (t : List Char) : Except PyErr Nat :=
  if allDigits t && t.length ≤ 4 then .ok (digitsToNat t)
  else .error (.valueError "unconverted year field")

-- %y field: exactly 2 digits, strptime pivot (00-68 -> 20xx, 69-99 -> 19xx)
def readY2Tok (t : List Char) : Except PyErr Nat :=
  if allDigits t && t.length = 2 then
    let v := digitsToNat t
    .ok (if v ≤ 68 then 2000 + v else 1900 + v)
  else .error (.valueError "unconverted year field")

def mkTimestamp (y m d : Nat) : Except PyErr Date :=
  if validDate y m d && tsInBounds y m d then .ok ⟨y, m, d⟩
  else .error (.valueError "invalid or out-of-bounds datetime")

-- day SEP month SEP year layouts ("%d/%m/%Y", "%d/%m/%y", "%d-%m-%Y", "%d-%m-%y")
def strptimeDMY (sep : Char) (yTok : List Char → Except PyErr Nat)
    (s : String) : Except PyErr Date :=
  match splitOnChar sep s.data with
  | [a, b, c] => do
    let d ← readDayTok a
    let m ← readMonthTok b
    let y ← yTok c
    mkTimestamp y m d
  | _ => .error (.valueError "time data does not match format")

-- year SEP month SEP day layouts ("%Y-%m-%d" and the "%Y/%m/%d" fallback)
def strptimeYMD (sep : Char) (s : String) : Except PyErr Date :=
  match splitOnChar sep s.data with
  | [a, b, c] => do
    let y ← readY4Tok a
    let m ← readMonthTok b
    let d ← readDayTok c
    mkTimestamp y m d
  | _ => .error (.valueError "time data does not match format")

-- the fixed priority list of helpers.py lines 11-17
def dateFormats : List (String → Except PyErr Date) :=
  [strptimeDMY '/' readY4Tok,
   strptimeDMY '/' readY2Tok,
   strptimeYMD '-',
   strptimeDMY '-' readY4Tok,
   strptimeDMY '-' readY2Tok]

-- Timestamp.replace(year=y+100); raises ValueError when the shifted
-- date is invalid or out of the Timestamp range
def replaceYear (dt : Date) (y : Nat) : Except PyErr Date :=
  if validDate y dt.month dt.day && tsInBounds y dt.month dt.day then
    .ok ⟨y, dt.month, dt.day⟩
  else .error (.valueError "replace produced an invalid datetime")

-- the century-disambiguation applied after a successful parse
def centuryAdjustE (dt : Date) : Except PyErr Date :=
  if dt.year < 1950 then replaceYear dt (dt.year + 100) else .ok dt

-- one iteration of the format loop body (parse then century rule)
def tryFormat (f : String → Except PyErr Date) (s : String) : Except PyErr Date := do
  let dt ← f s
  centuryAdjustE dt

-- pd.to_datetime(s, format="%Y/%m/%d", errors="coerce"): never raises,
-- unparseable input coerces to NaT (modelled as none)
def coerceFallback (s : String) : Option Date :=
  match strptimeYMD '/' s with
  | .ok dt => some dt
  | .error _ => none

def tryFormatsLoop : List (String → Except PyErr Date) → String →
    Except PyErr (Option Date)
  | [], s => .ok (coerceFallback s)
  | f :: fs, s =>
    match tryFormat f s with
    | .ok dt => .ok (some dt)
    | .error e => if caughtByDateLoop e then tryFormatsLoop fs s else .error e

-- helpers.py parse_match_date; the input is a cell that is either a
-- string or missing (pd.isna), the result is NaT (none) or a Timestamp
def parse_match_date : Option String → Except PyErr (Option Date)
  | none => .ok none
  | some s => tryFormatsLoop dateFormats s

-- the raw first-successful-parse among the priority layouts, before
-- the century rule is applied (used to state the century claim)
def rawFirstParse : List (String → Except PyErr Date) → String → Option Date
  | [], _ => none
  | f :: fs, s =>
    match f s with
    | .ok dt => some dt
    | .error _ => rawFirstParse fs s

-- the date the caller observes: parsed year below 1950 shifted by 100
def centuryShift (dt : Date) : Date :=
  if dt.year < 1950 then ⟨dt.year + 100, dt.month, dt.day⟩ else dt

/-! ## retry_handler (src/pipelines/hooks.py) -/

-- outcome of the fetch task, as seen by the retry predicate:
-- requests.HTTPError carries the response status code;
-- requests.ConnectionError covers connection failures (including
-- ConnectTimeout); requests.Timeout that is not a ConnectionError
-- (e.g. ReadTimeout) falls into the generic Exception arm.
inductive FetchOutcome where
  | success
  | httpError (statusCode : Nat)
  | connectionError
  | readTimeout
  | otherException
deriving DecidableEq, Repr

-- hooks.py lines 4-16; the success path falls off the end of the
-- function and returns None, which the caller treats as falsy
def retry_handler : FetchOutcome → Bool
  | .success => false
  | .httpError code => !(code = 401 || code = 404)
  | .connectionError => false
  | .readTimeout => true
  | .otherException => true

/-! ## get_current_season (data_ingestion_common_tasks.py lines 59-82) -/

-- Python s[-2:] (for a non-negative length-clamped slice)
def pyLastTwo (s : String) : String :=
  ⟨s.data.drop (s.data.length - 2)⟩

-- the clock reading is (year, month) of datetime.now()
def get_current_season (year month : Nat) : String :=
  let seasonStartYear := if 8 ≤ month then year else year - 1
  let seasonEndYear := if 8 ≤ month then year + 1 else year
  pyLastTwo (Nat.repr seasonStartYear) ++ pyLastTwo (Nat.repr seasonEndYear)

-- Modelled from the spec: the 4-digit label formed from the last two
-- decimal digits of the season start year followed by the last two
-- decimal digits of the following year.
def twoDigitStr (n : Nat) : String :=
  ⟨[Nat.digitChar (n / 10 % 10), Nat.digitChar (n % 10)]⟩

def seasonLabelSpec (year month : Nat) : String :=
  let startY := if 8 ≤ month then year else year - 1
  twoDigitStr (startY % 100) ++ twoDigitStr ((startY + 1) % 100)

/-! ## DataFrames -/

-- a cell value: a string, an integer, a parsed Timestamp, NaT, or a
-- missing value (None / NaN)
inductive Val where
  | vstr (s : String)
  | vint (n : Int)
  | vdate (dt : Date)
  | vNaT
  | vnull
deriving DecidableEq, Repr

def Val.isMissing : Val → Bool
  | .vNaT => true
  | .vnull => true
  | _ => false

def Val.isStr : Val → Bool
  | .vstr _ => true
  | _ => false

-- rendering used when a value is interpolated into an f-string
def Val.pyStr : Val → String
  | .vstr s => s
  | .vint n => toString n
  | .vdate dt => Nat.repr dt.year ++ "-" ++ Nat.repr dt.month ++ "-" ++ Nat.repr dt.day
  | .vNaT => "NaT"
  | .vnull => "None"

structure Frame where
  cols : List String
  rows : List (List Val)
deriving DecidableEq, Repr

-- index of the first column with the given name
def colIdx : List String → String → Option Nat
  | [], _ => none
  | c :: cs, n => if c = n then some 0 else (colIdx cs n).map (· + 1)

-- the cell of a row under a named column (vnull when absent)
def cellByName (cols : List String) (r : List Val) (n : String) : Val :=
  match colIdx cols n with
  | some j => r.getD j .vnull
  | none => .vnull

/-! ## _clean_data (data_ingestion_common_tasks.py lines 85-129) -/

-- Python str.lower for ASCII letters
def charLower (c : Char) : Char :=
  if 'A' ≤ c && c ≤ 'Z' then Char.ofNat (c.toNat + 32) else c

-- column-name normalization: str.lower().str.replace(" ", "_")
def normalizeName (s : String) : String :=
  ⟨s.data.map (fun c => if charLower c = ' ' then '_' else charLower c)⟩

def normalizeCols (f : Frame) : Frame :=
  ⟨f.cols.map normalizeName, f.rows⟩

-- Python str.strip (whitespace at both ends)
def pyStrip (s : String) : String :=
  ⟨((s.data.dropWhile Char.isWhitespace).reverse.dropWhile Char.isWhitespace).reverse⟩

-- parse_match_date applied to one cell of the date column:
-- missing values short-circuit to NaT via pd.isna; strings go through
-- the format loop; already-parsed Timestamps pass through array_strptime
-- unchanged and then meet the century rule; other cell types raise
def applyParseCell : Val → Except PyErr Val
  | .vnull => .ok .vNaT
  | .vNaT => .ok .vNaT
  | .vstr s =>
    (parse_match_date (some s)).map fun r =>
      match r with
      | some dt => .vdate dt
      | none => .vNaT
  | .vdate dt => (centuryAdjustE dt).map Val.vdate
  | .vint _ => .error .otherError

def mapExcept (f : α → Except PyErr β) : List α → Except PyErr (List β)
  | [] => .ok []
  | a :: l => do
    let b ← f a
    let bs ← mapExcept f l
    .ok (b :: bs)

-- df_cleaned["date"] = df_cleaned["date"].apply(parse_match_date);
-- KeyError when no date column exists
def dateParseStep (f : Frame) : Except PyErr Frame :=
  match colIdx f.cols "date" with
  | none => .error (.keyError "date")
  | some j => do
    let rows ← mapExcept
      (fun r => do
        let c ← applyParseCell (r.getD j .vnull)
        .ok (r.set j c))
      f.rows
    .ok ⟨f.cols, rows⟩

-- df_cleaned.dropna(): drop every row holding a missing value
def dropnaStep (f : Frame) : Frame :=
  ⟨f.cols, f.rows.filter (fun r => r.all (fun v => !v.isMissing))⟩

-- select_dtypes(include=["object"]): the columns whose cells are strings
def objColIdxs (f : Frame) : List Nat :=
  (List.range f.cols.length).filter
    (fun j => f.rows.all (fun r => (r.getD j .vnull).isStr))

-- df_cleaned[df_cleaned[col].str.strip() != ""] for one column
def stripFilterStep (j : Nat) (f : Frame) : Frame :=
  ⟨f.cols, f.rows.filter (fun r =>
    match r.getD j .vnull with
    | .vstr s => pyStrip s ≠ ""
    | _ => true)⟩

-- the loop over the object-dtype columns (snapshot of the columns,
-- then the frame is re-filtered once per column)
def stripLoop (f : Frame) : Frame :=
  (objColIdxs f).foldl (fun acc j => stripFilterStep j acc) f

-- df_cleaned["season"] = season: overwrite the column when present,
-- otherwise append it
def stampSeason (season : String) (f : Frame) : Frame :=
  match colIdx f.cols "season" with
  | some j => ⟨f.cols, f.rows.map (fun r => r.set j (.vstr season))⟩
  | none => ⟨f.cols ++ ["season"], f.rows.map (fun r => r ++ [Val.vstr season])⟩

-- the dedup subset of line 112
def keyNames : List String :=
  ["date", "hometeam", "awayteam", "season", "div"]

-- the identity tuple of a row
def rowKeyV (cols : List String) (r : List Val) : List Val :=
  keyNames.map (fun n => cellByName cols r n)

-- drop_duplicates(subset=..., keep="first")
def dropDupsByKeyAux (k : List Val → List Val) (seen : List (List Val)) :
    List (List Val) → List (List Val)
  | [] => []
  | r :: rs =>
    if k r ∈ seen then dropDupsByKeyAux k seen rs
    else r :: dropDupsByKeyAux k (k r :: seen) rs

def dropDupsByKey (k : List Val → List Val) (l : List (List Val)) : List (List Val) :=
  dropDupsByKeyAux k [] l

def dedupStep (f : Frame) : Except PyErr Frame :=
  if keyNames.all (fun n => (colIdx f.cols n).isSome) then
    .ok ⟨f.cols, dropDupsByKey (rowKeyV f.cols) f.rows⟩
  else .error (.keyError "drop_duplicates subset column missing")

-- lines 117-125: required-columns contract check
def checkRequired (required : List String) (f : Frame) : Except PyErr Unit :=
  if required.isEmpty then
    .error (.valueError "No required columns found in configuration file")
  else if required.all (fun n => n ∈ f.cols) then .ok ()
  else .error (.valueError "Missing required columns in DataFrame")

-- df_cleaned[required_columns]: project to the contract columns in order
def projRow (cols : List String) (required : List String) (r : List Val) : List Val :=
  required.map (fun n => cellByName cols r n)

def projectStep (required : List String) (f : Frame) : Frame :=
  ⟨required, f.rows.map (fun r => projRow f.cols required r)⟩

-- the frame after steps 2-4 of _clean_data (normalize, date-parse,
-- dropna, blank-string filter, season stamp): the surviving rows
def survivorFrameE (season : String) (df : Frame) : Except PyErr Frame := do
  let f ← dateParseStep (normalizeCols df)
  .ok (stampSeason season (stripLoop (dropnaStep f)))

-- data_ingestion_common_tasks.py _clean_data; `required` stands for
-- get_required_columns() read from configuration
def _clean_data (required : List String) (season : String) (df : Frame) :
    Except PyErr Frame :=
  if df.rows.length = 0 then
    .error (.valueError "Received empty DataFrame, cannot clean data")
  else do
    let surv ← survivorFrameE season df
    let deduped ← dedupStep surv
    let _ ← checkRequired required deduped
    .ok (projectStep required deduped)

/-! ## The imperative shape of _clean_data: heap with explicit references

`df.copy()` allocates a fresh frame; every later statement of the
function assigns or mutates only the `df_cleaned` reference.  The heap
makes the aliasing explicit so that non-mutation of the caller's frame
is a real property rather than a consequence of the embedding.
-/

abbrev Heap := List Frame

def readRef (h : Heap) (i : Nat) : Frame :=
  List.getD h i ⟨[], []⟩

def writeRef (h : Heap) (i : Nat) (f : Frame) : Heap :=
  List.set h i f

-- _clean_data run against the heap: dfRef is the caller's DataFrame
-- object; the working copy lives at a freshly allocated reference
def cleanHeapProg (required : List String) (season : String)
    (h : Heap) (dfRef : Nat) : Except PyErr Frame × Heap :=
  let df := readRef h dfRef
  if df.rows.length = 0 then
    (.error (.valueError "Received empty DataFrame, cannot clean data"), h)
  else
    let cRef := List.length h
    let h1 := h ++ [df]
    let h2 := writeRef h1 cRef (normalizeCols (readRef h1 cRef))
    match dateParseStep (readRef h2 cRef) with
    | .error e => (.error e, h2)
    | .ok f3 =>
      let h3 := writeRef h2 cRef f3
      let h4 := writeRef h3 cRef (dropnaStep (readRef h3 cRef))
      let h5 := writeRef h4 cRef (stripLoop (readRef h4 cRef))
      let h6 := writeRef h5 cRef (stampSeason season (readRef h5 cRef))
      match dedupStep (readRef h6 cRef) with
      | .error e => (.error e, h6)
      | .ok f7 =>
        let h7 := writeRef h6 cRef f7
        match checkRequired required (readRef h7 cRef) with
        | .error e => (.error e, h7)
        | .ok _ => (.ok (projectStep required (readRef h7 cRef)), h7)

/-! ## load_data_to_db (delete-then-insert loader)

Two variants exist in the repository: the shared one in
data_ingestion_common_tasks.py (parameterized DELETE) and the one in
data_ingestion_local.py (f-string interpolated DELETE).  Both are the
same algorithm, so the body is shared and the DELETE construction is a
parameter.  Database failures are injected through an oracle giving
the outcome of each statement of the transaction in order.
-/

-- one SQL statement as sent to the database driver: the SQL text and
-- the bound parameters
structure Stmt where
  sql : String
  params : List (String × Val)
deriving DecidableEq, Repr

-- df["season"].unique(): distinct values in first-occurrence order
def uniqueAux (seen : List Val) : List Val → List Val
  | [] => []
  | v :: vs =>
    if v ∈ seen then uniqueAux seen vs
    else v :: uniqueAux (v :: seen) vs

def uniqueList (l : List Val) : List Val :=
  uniqueAux [] l

-- common tasks, lines 194-195: constant SQL, season bound as parameter
def mkDeleteParam (v : Val) : Stmt :=
  ⟨"DELETE FROM english_league_data WHERE season = :season", [("season", v)]⟩

-- local variant, lines 173-174: season interpolated into the SQL text
def mkDeleteInterp (v : Val) : Stmt :=
  ⟨"DELETE FROM english_league_data WHERE season = " ++ "'" ++ v.pyStr ++ "'", []⟩

-- the per-season DELETE loop inside the transaction; sIdxT is the
-- table's season column (its absence makes the statement fail), and
-- the oracle decides whether statement number i raises
def runDeletes (mkDelete : Val → Stmt) (sIdxT : Option Nat) :
    List Val → List (List Val) → (Nat → Bool) → Nat →
    Except PyErr (List (List Val)) × List Stmt
  | [], rows, _, _ => (.ok rows, [])
  | v :: vs, rows, oracle, i =>
    let st := mkDelete v
    if oracle i then (.error .dbError, [st])
    else
      match sIdxT with
      | none => (.error .dbError, [st])
      | some j =>
        let rec2 := runDeletes mkDelete sIdxT vs
          (rows.filter (fun r => r.getD j .vnull ≠ v)) oracle (i + 1)
        (rec2.1, st :: rec2.2)

-- result of one loader call: the table afterwards (none when the
-- table still does not exist), the exception propagated to the
-- caller, if any, and the DELETE statements sent to the database
structure LoadResult where
  db : Option Frame
  err : Option PyErr
  stmts : List Stmt
deriving DecidableEq, Repr

def loadWith (mkDelete : Val → Stmt) (df : Frame) (db : Option Frame)
    (oracle : Nat → Bool) : LoadResult :=
  if df.rows.isEmpty then ⟨db, none, []⟩
  else
    match colIdx df.cols "season" with
    | none => ⟨db, some (.valueError "DataFrame must contain season column"), []⟩
    | some sIdx =>
      let seasons := uniqueList (df.rows.map (fun r => r.getD sIdx .vnull))
      match db with
      | some tbl =>
        -- table exists: transaction around per-season DELETEs + insert
        let rd :=
          runDeletes mkDelete (colIdx tbl.cols "season") seasons tbl.rows oracle 0
        match rd.1 with
        | .error e => ⟨some tbl, some e, rd.2⟩          -- rollback
        | .ok kept =>
          if oracle seasons.length then                 -- insert raised
            ⟨some tbl, some .dbError, rd.2⟩             -- rollback
          else if df.cols = tbl.cols then
            ⟨some ⟨tbl.cols, kept ++ df.rows⟩, none, rd.2⟩  -- commit
          else ⟨some tbl, some .dbError, rd.2⟩          -- rollback
      | none =>
        -- table absent: to_sql(if_exists="replace") creates it
        ⟨some df, none, []⟩

-- data_ingestion_common_tasks.py load_data_to_db
def load_data_to_db (df : Frame) (db : Option Frame) (oracle : Nat → Bool) :
    LoadResult :=
  loadWith mkDeleteParam df db oracle

-- data_ingestion_local.py load_data_to_db
def load_data_to_db_local (df : Frame) (db : Option Frame) (oracle : Nat → Bool) :
    LoadResult :=
  loadWith mkDeleteInterp df db oracle

-- the season cell of a table row, by column name
def seasonOfRow (cols : List String) (r : List Val) : Val :=
  cellByName cols r "season"

-- the distinct season values of a loader input
def seasonsOfDf (df : Frame) : List Val :=
  uniqueList (df.rows.map (fun r => seasonOfRow df.cols r))

/-! ## Decimal-representation lemmas for the season label -/

-- the decimal digit characters of n, most significant first
def natChars (n : Nat) : List Char :=
  if h : n < 10 then [Nat.digitChar n]
  else natChars (n / 10) ++ [Nat.digitChar (n % 10)]
decreasing_by omega

theorem toDigitsCore_eq_natChars (fuel : Nat) :
    ∀ (n : Nat) (ds : List Char), n < fuel →
      Nat.toDigitsCore 10 fuel n ds = natChars n ++ ds := by
  induction fuel with
  | zero => intro n ds h; exact absurd h (Nat.not_lt_zero n)
  | succ fuel ih =>
    intro n ds h
    show (if n / 10 = 0 then Nat.digitChar (n % 10) :: ds
          else Nat.toDigitsCore 10 fuel (n / 10) (Nat.digitChar (n % 10) :: ds)) =
        natChars n ++ ds
    by_cases h0 : n / 10 = 0
    · have hn : n < 10 := by omega
      have hmod : n % 10 = n := Nat.mod_eq_of_lt hn
      rw [if_pos h0, natChars, dif_pos hn, hmod]
      rfl
    · have hn : ¬ n < 10 := by omega
      have hfuel : n / 10 < fuel := by omega
      rw [if_neg h0, ih (n / 10) (Nat.digitChar (n % 10) :: ds) hfuel]
      conv_rhs => rw [natChars, dif_neg hn]
      rw [List.append_assoc]
      rfl

theorem repr_data (y : Nat) : (Nat.repr y).data = natChars y := by
  show (Nat.toDigits 10 y).asString.data = natChars y
  rw [Nat.toDigits, List.asString]
  show Nat.toDigitsCore 10 (y + 1) y [] = natChars y
  rw [toDigitsCore_eq_natChars (y + 1) y [] (Nat.lt_succ_self y), List.append_nil]

theorem natChars_drop_lastTwo (y : Nat) (hy : 10 ≤ y) :
    (natChars y).drop ((natChars y).length - 2) =
      [Nat.digitChar (y / 10 % 10), Nat.digitChar (y % 10)] := by
  have hn : ¬ y < 10 := by omega
  by_cases h100 : y < 100
  · have h10 : y / 10 < 10 := by omega
    have hq : y / 10 % 10 = y / 10 := Nat.mod_eq_of_lt h10
    rw [natChars, dif_neg hn, natChars, dif_pos h10, hq]
    rfl
  · have hn2 : ¬ y / 10 < 10 := by omega
    have hchain :
        natChars y = natChars (y / 10 / 10) ++
          [Nat.digitChar (y / 10 % 10), Nat.digitChar (y % 10)] := by
      rw [natChars, dif_neg hn]
      rw [natChars, dif_neg hn2, List.append_assoc]
      rfl
    rw [hchain]
    have hlen : (natChars (y / 10 / 10) ++
        [Nat.digitChar (y / 10 % 10), Nat.digitChar (y % 10)]).length - 2 =
        (natChars (y / 10 / 10)).length := by
      rw [List.length_append]
      simp
    rw [hlen, List.drop_left]

theorem pyLastTwo_repr (y : Nat) (hy : 10 ≤ y) :
    pyLastTwo (Nat.repr y) = twoDigitStr (y % 100) := by
  have h1 : y % 100 / 10 % 10 = y / 10 % 10 := by omega
  have h2 : y % 100 % 10 = y % 10 := by omega
  show String.mk ((Nat.repr y).data.drop ((Nat.repr y).data.length - 2)) = _
  rw [repr_data, natChars_drop_lastTwo y hy, twoDigitStr, h1, h2]

/-- Claim C8: for every clock reading (year of a practical clock, any
month), get_current_season returns the 4-digit label made of the last
two digits of the season start year (the current year from August on,
the previous year before August) followed by the last two digits of
the following year; in particular March 2024 gives "2324" and August
2024 gives "2425". -/
theorem C8_current_season_label (year month : Nat)
    (hy : 1000 ≤ year) (hm1 : 1 ≤ month) (hm2 : month ≤ 12) :
    get_current_season year month = seasonLabelSpec year month ∧
    get_current_season 2024 3 = "2324" ∧
    get_current_season 2024 8 = "2425" := by
  refine ⟨?_, by decide, by decide⟩
  unfold get_current_season seasonLabelSpec
  by_cases h8 : 8 ≤ month
  · have e1 : (if 8 ≤ month then year else year - 1) = year := if_pos h8
    have e2 : (if 8 ≤ month then year + 1 else year) = year + 1 := if_pos h8
    rw [e1, e2]
    show pyLastTwo (Nat.repr year) ++ pyLastTwo (Nat.repr (year + 1)) =
      twoDigitStr (year % 100) ++ twoDigitStr ((year + 1) % 100)
    rw [pyLastTwo_repr year (by omega), pyLastTwo_repr (year + 1) (by omega)]
  · have e1 : (if 8 ≤ month then year else year - 1) = year - 1 := if_neg h8
    have e2 : (if 8 ≤ month then year + 1 else year) = year := if_neg h8
    rw [e1, e2]
    show pyLastTwo (Nat.repr (year - 1)) ++ pyLastTwo (Nat.repr year) =
      twoDigitStr ((year - 1) % 100) ++ twoDigitStr ((year - 1 + 1) % 100)
    rw [pyLastTwo_repr (year - 1) (by omega), pyLastTwo_repr year (by omega)]
    have hsub : year - 1 + 1 = year := by omega
    rw [hsub]

/-- Witness for C8 at the clock reading March 2024. -/
theorem C8_current_season_label_witness :
    1000 ≤ 2024 ∧ 1 ≤ 3 ∧ 3 ≤ 12 ∧
      (get_current_season 2024 3 = seasonLabelSpec 2024 3 ∧
       get_current_season 2024 3 = "2324" ∧
       get_current_season 2024 8 = "2425") :=
  ⟨by decide, by decide, by decide,
    C8_current_season_label 2024 3 (by decide) (by decide) (by decide)⟩

/-- Claim C5: the claim states that retry_handler returns true for
every transient network failure (connection failures and timeouts) and
false exactly for HTTP 401/404.  The code instead returns False on
requests.ConnectionError, so connection failures (including connect
timeouts) are not retried; this theorem records the code's actual
behaviour at each outcome, the first conjunct being the divergence. -/
theorem C5_retry_handler_behaviour :
    retry_handler .connectionError = false ∧
    retry_handler (.httpError 401) = false ∧
    retry_handler (.httpError 404) = false ∧
    retry_handler (.httpError 500) = true ∧
    retry_handler (.httpError 403) = true ∧
    retry_handler .readTimeout = true ∧
    retry_handler .otherException = true ∧
    retry_handler .success = false := by
  decide

-- concrete loader inputs used to exhibit the DELETE statements
def dfSeason2425 : Frame :=
  ⟨["hometeam", "season"], [[Val.vstr "Chelsea", Val.vstr "2425"]]⟩

def dfSeason2324 : Frame :=
  ⟨["hometeam", "season"], [[Val.vstr "Leeds", Val.vstr "2324"]]⟩

def tblTwoSeasons : Frame :=
  ⟨["hometeam", "season"],
   [[Val.vstr "Arsenal", Val.vstr "2425"],
    [Val.vstr "Everton", Val.vstr "2324"]]⟩

def noFailOracle : Nat → Bool := fun _ => false

/-- Claim C4: the claim states that in every code path of the loader
the DELETE is parameterized, with one constant SQL text and the season
passed as a bound parameter.  That holds for the shared loader in
data_ingestion_common_tasks.py (last conjunct), but the loader in
data_ingestion_local.py interpolates the season value into the SQL
text with an empty parameter list, so its SQL text varies with the
season value. -/
theorem C4_local_delete_is_interpolated :
    (load_data_to_db_local dfSeason2425 (some tblTwoSeasons) noFailOracle).stmts =
      [⟨"DELETE FROM english_league_data WHERE season = '2425'", []⟩] ∧
    (load_data_to_db_local dfSeason2324 (some tblTwoSeasons) noFailOracle).stmts =
      [⟨"DELETE FROM english_league_data WHERE season = '2324'", []⟩] ∧
    (load_data_to_db_local dfSeason2425 (some tblTwoSeasons) noFailOracle).stmts.map Stmt.sql ≠
      (load_data_to_db_local dfSeason2324 (some tblTwoSeasons) noFailOracle).stmts.map Stmt.sql ∧
    (load_data_to_db dfSeason2425 (some tblTwoSeasons) noFailOracle).stmts =
      [⟨"DELETE FROM english_league_data WHERE season = :season",
        [("season", Val.vstr "2425")]⟩] ∧
    (load_data_to_db dfSeason2324 (some tblTwoSeasons) noFailOracle).stmts.map Stmt.sql =
      (load_data_to_db dfSeason2425 (some tblTwoSeasons) noFailOracle).stmts.map Stmt.sql := by
  decide

/-! ## Loader lemmas -/

theorem uniqueAux_mem (v : Val) :
    ∀ (l seen : List Val), v ∈ uniqueAux seen l ↔ v ∈ l ∧ v ∉ seen := by
  intro l
  induction l with
  | nil => intro seen; simp [uniqueAux]
  | cons a t ih =>
    intro seen
    by_cases ha : a ∈ seen
    · rw [uniqueAux, if_pos ha, ih seen]
      simp only [List.mem_cons]
      constructor
      · rintro ⟨hv, hns⟩; exact ⟨Or.inr hv, hns⟩
      · rintro ⟨hv | hv, hns⟩
        · exact absurd (hv ▸ ha) hns
        · exact ⟨hv, hns⟩
    · rw [uniqueAux, if_neg ha]
      simp only [List.mem_cons, ih (a :: seen), List.mem_cons]
      constructor
      · rintro (hv | ⟨hv, hns⟩)
        · exact ⟨Or.inl hv, hv ▸ ha⟩
        · exact ⟨Or.inr hv, fun hc => hns (Or.inr hc)⟩
      · rintro ⟨hv | hv, hns⟩
        · exact Or.inl hv
        · by_cases hva : v = a
          · exact Or.inl hva
          · exact Or.inr ⟨hv, fun hc => (hc.elim hva hns : False)⟩

theorem mem_uniqueList (v : Val) (l : List Val) : v ∈ uniqueList l ↔ v ∈ l := by
  rw [uniqueList, uniqueAux_mem]
  simp

theorem uniqueList_ne_nil (a : Val) (l : List Val) : uniqueList (a :: l) ≠ [] := by
  rw [uniqueList, uniqueAux]
  simp [uniqueAux]

theorem runDeletes_fst_ok (mk : Val → Stmt) (j : Nat) :
    ∀ (vs : List Val) (rows : List (List Val)) (oracle : Nat → Bool) (i : Nat)
      (rows2 : List (List Val)),
      (runDeletes mk (some j) vs rows oracle i).1 = .ok rows2 →
      rows2 = rows.filter (fun r => decide ((r.getD j .vnull) ∉ vs)) := by
  intro vs
  induction vs with
  | nil =>
    intro rows oracle i rows2 h
    rw [runDeletes] at h
    cases h
    simp
  | cons v vs ih =>
    intro rows oracle i rows2 h
    rw [runDeletes] at h
    by_cases ho : oracle i
    · rw [if_pos ho] at h; cases h
    · rw [if_neg ho] at h
      have h1 : (runDeletes mk (some j) vs
          (rows.filter (fun r => r.getD j .vnull ≠ v)) oracle (i + 1)).1 =
          .ok rows2 := h
      have := ih (rows.filter (fun r => r.getD j .vnull ≠ v)) oracle (i + 1) rows2 h1
      rw [this, List.filter_filter]
      apply List.filter_congr
      intro r _
      simp [List.mem_cons, not_or, Bool.and_comm]

-- success of a loader call on an existing table: the input was
-- non-empty, had a season column at the same index as the table, and
-- the new table is the old rows minus the input's seasons, plus the
-- input rows
theorem loadWith_success (mk : Val → Stmt) (df tbl : Frame) (oracle : Nat → Bool)
    (hne : df.rows ≠ [])
    (herr : (loadWith mk df (some tbl) oracle).err = none) :
    ∃ sIdx, colIdx df.cols "season" = some sIdx ∧ df.cols = tbl.cols ∧
      (loadWith mk df (some tbl) oracle).db = some ⟨tbl.cols,
        tbl.rows.filter (fun r => decide ((r.getD sIdx .vnull) ∉
          uniqueList (df.rows.map (fun r => r.getD sIdx .vnull)))) ++ df.rows⟩ := by
  have hempty : df.rows.isEmpty = false := by
    cases hr : df.rows with
    | nil => exact absurd hr hne
    | cons a l => rfl
  cases hsi : colIdx df.cols "season" with
  | none =>
    exfalso
    simp only [loadWith, hempty, Bool.false_eq_true, if_false, hsi] at herr
    exact Option.noConfusion herr
  | some sIdx =>
    refine ⟨sIdx, rfl, ?_⟩
    cases hjt : colIdx tbl.cols "season" with
    | none =>
      exfalso
      obtain ⟨r0, rest, hrows⟩ : ∃ r0 rest, df.rows = r0 :: rest := by
        cases hr : df.rows with
        | nil => exact absurd hr hne
        | cons a l => exact ⟨a, l, rfl⟩
      obtain ⟨v, vs2, hvs⟩ : ∃ v vs2,
          uniqueList (df.rows.map (fun r => r.getD sIdx .vnull)) = v :: vs2 := by
        rw [hrows]
        rw [List.map_cons, uniqueList, uniqueAux]
        rw [if_neg (List.not_mem_nil _)]
        exact ⟨_, _, rfl⟩
      have hrdfail : (runDeletes mk none
          (uniqueList (df.rows.map (fun r => r.getD sIdx .vnull)))
          tbl.rows oracle 0).1 = .error .dbError := by
        rw [hvs, runDeletes]
        by_cases ho : oracle 0
        · rw [if_pos ho]
        · rw [if_neg ho]
      simp only [loadWith, hempty, Bool.false_eq_true, if_false, hsi, hjt,
        hrdfail] at herr
      exact Option.noConfusion herr
    | some jt =>
      cases hres : (runDeletes mk (some jt)
          (uniqueList (df.rows.map (fun r => r.getD sIdx .vnull)))
          tbl.rows oracle 0).1 with
      | error e =>
        exfalso
        simp only [loadWith, hempty, Bool.false_eq_true, if_false, hsi, hjt,
          hres] at herr
        exact Option.noConfusion herr
      | ok kept =>
        by_cases ho : oracle (uniqueList
            (df.rows.map (fun r => r.getD sIdx .vnull))).length
        · exfalso
          simp only [loadWith, hempty, Bool.false_eq_true, if_false, hsi, hjt,
            hres, ho, if_true] at herr
          exact Option.noConfusion herr
        · by_cases hcols : df.cols = tbl.cols
          · have hjj : jt = sIdx := by
              rw [hcols] at hsi; rw [hsi] at hjt; cases hjt; rfl
            subst hjj
            refine ⟨hcols, ?_⟩
            have hkept := runDeletes_fst_ok mk jt _ tbl.rows oracle 0 kept hres
            simp only [loadWith, hempty, Bool.false_eq_true, if_false, hsi, hcols,
              hjt, hres, ho, eq_self_iff_true, if_true]
            rw [hkept]
          · exfalso
            simp only [loadWith, hempty, Bool.false_eq_true, if_false, hsi, hjt,
              hres, ho, hcols, if_false] at herr
            exact Option.noConfusion herr

-- a successful load replaces exactly the partitions present in the input
theorem load_filter_mem (mk : Val → Stmt) (df tbl tbl1 : Frame) (oracle : Nat → Bool)
    (hne : df.rows ≠ [])
    (herr : (loadWith mk df (some tbl) oracle).err = none)
    (hdb : (loadWith mk df (some tbl) oracle).db = some tbl1)
    (s : Val) (hs : s ∈ seasonsOfDf df) :
    tbl1.rows.filter (fun r => decide (seasonOfRow tbl1.cols r = s)) =
      df.rows.filter (fun r => decide (seasonOfRow df.cols r = s)) := by
  obtain ⟨sIdx, hsi, hcols, hdb2⟩ := loadWith_success mk df tbl oracle hne herr
  rw [hdb] at hdb2
  cases hdb2
  simp only
  rw [List.filter_append]
  have hsv : ∀ (cols : List String), colIdx cols "season" = some sIdx →
      ∀ r, seasonOfRow cols r = r.getD sIdx .vnull := by
    intro cols hc r
    rw [seasonOfRow, cellByName, hc]
  have hsi' : colIdx tbl.cols "season" = some sIdx := by rw [← hcols]; exact hsi
  have hs' : s ∈ uniqueList (df.rows.map (fun r => r.getD sIdx .vnull)) := by
    have := hs
    rw [seasonsOfDf] at this
    have hmapeq : df.rows.map (fun r => seasonOfRow df.cols r) =
        df.rows.map (fun r => r.getD sIdx .vnull) :=
      List.map_congr_left (fun r _ => hsv df.cols hsi r)
    rw [hmapeq] at this
    exact this
  have hleft : (tbl.rows.filter (fun r => decide ((r.getD sIdx .vnull) ∉
      uniqueList (df.rows.map (fun r => r.getD sIdx .vnull))))).filter
      (fun r => decide (seasonOfRow tbl.cols r = s)) = [] := by
    rw [List.filter_eq_nil_iff]
    intro r hr
    have hr2 := List.of_mem_filter hr
    rw [hsv tbl.cols hsi' r]
    simp only [decide_eq_true_eq] at hr2 ⊢
    intro hcontra
    exact hr2 (hcontra ▸ hs')
  rw [hleft, List.nil_append]
  apply List.filter_congr
  intro r _
  rw [hsv tbl.cols hsi' r, hsv df.cols hsi r]

-- a successful load leaves every absent partition untouched
theorem load_filter_not_mem (mk : Val → Stmt) (df tbl tbl1 : Frame) (oracle : Nat → Bool)
    (hne : df.rows ≠ [])
    (herr : (loadWith mk df (some tbl) oracle).err = none)
    (hdb : (loadWith mk df (some tbl) oracle).db = some tbl1)
    (s : Val) (hs : s ∉ seasonsOfDf df) :
    tbl1.rows.filter (fun r => decide (seasonOfRow tbl1.cols r = s)) =
      tbl.rows.filter (fun r => decide (seasonOfRow tbl.cols r = s)) := by
  obtain ⟨sIdx, hsi, hcols, hdb2⟩ := loadWith_success mk df tbl oracle hne herr
  rw [hdb] at hdb2
  cases hdb2
  simp only
  rw [List.filter_append]
  have hsv : ∀ (cols : List String), colIdx cols "season" = some sIdx →
      ∀ r, seasonOfRow cols r = r.getD sIdx .vnull := by
    intro cols hc r
    rw [seasonOfRow, cellByName, hc]
  have hsi' : colIdx tbl.cols "season" = some sIdx := by rw [← hcols]; exact hsi
  have hs' : s ∉ uniqueList (df.rows.map (fun r => r.getD sIdx .vnull)) := by
    intro hcontra
    apply hs
    rw [seasonsOfDf]
    have hmapeq : df.rows.map (fun r => seasonOfRow df.cols r) =
        df.rows.map (fun r => r.getD sIdx .vnull) :=
      List.map_congr_left (fun r _ => hsv df.cols hsi r)
    rw [hmapeq]
    exact hcontra
  have hright : df.rows.filter (fun r => decide (seasonOfRow tbl.cols r = s)) = [] := by
    rw [List.filter_eq_nil_iff]
    intro r hr
    rw [hsv tbl.cols hsi' r]
    simp only [decide_eq_true_eq]
    intro hcontra
    apply hs'
    rw [← hcontra, mem_uniqueList]
    exact List.mem_map_of_mem (fun r => r.getD sIdx .vnull) hr
  rw [hright, List.append_nil, List.filter_filter]
  apply List.filter_congr
  intro r _
  rw [hsv tbl.cols hsi' r]
  have himp : r.getD sIdx .vnull = s →
      r.getD sIdx .vnull ∉ uniqueList (df.rows.map (fun r => r.getD sIdx .vnull)) :=
    fun h1 => h1 ▸ hs'
  simpa using himp

-- every error path of the loader on an existing table leaves the table
-- untouched (the rollback branches and the pre-transaction checks)
theorem loadWith_error_rollback (mk : Val → Stmt) (df tbl : Frame)
    (oracle : Nat → Bool) (e : PyErr)
    (h : (loadWith mk df (some tbl) oracle).err = some e) :
    (loadWith mk df (some tbl) oracle).db = some tbl := by
  by_cases hemp : df.rows.isEmpty
  · exfalso
    simp only [loadWith, hemp, if_true] at h
    exact Option.noConfusion h
  · have hempty : df.rows.isEmpty = false := by
      cases hb : df.rows.isEmpty
      · rfl
      · exact absurd hb hemp
    cases hsi : colIdx df.cols "season" with
    | none => simp only [loadWith, hempty, Bool.false_eq_true, if_false, hsi]
    | some sIdx =>
      cases hres : (runDeletes mk (colIdx tbl.cols "season")
          (uniqueList (df.rows.map (fun r => r.getD sIdx .vnull)))
          tbl.rows oracle 0).1 with
      | error e2 =>
        simp only [loadWith, hempty, Bool.false_eq_true, if_false, hsi, hres]
      | ok kept =>
        by_cases ho : oracle (uniqueList
            (df.rows.map (fun r => r.getD sIdx .vnull))).length
        · simp only [loadWith, hempty, Bool.false_eq_true, if_false, hsi, hres]
          rw [if_pos ho]
        · by_cases hcols : df.cols = tbl.cols
          · exfalso
            simp only [loadWith, hempty, Bool.false_eq_true, if_false, hsi,
              hres] at h
            rw [if_neg ho, if_pos hcols] at h
            exact Option.noConfusion h
          · simp only [loadWith, hempty, Bool.false_eq_true, if_false, hsi, hres]
            rw [if_neg ho, if_neg hcols]

/-- Claim C2: for every loader input and every pre-existing table, if
an exception is raised during the delete-then-insert sequence (a
per-season DELETE, the bulk insert, or any other error), the
transaction is rolled back, the error propagates to the caller (it is
the err field of the result), and the table is exactly its pre-call
state: the whole season-set batch commits atomically or not at all. -/
theorem C2_load_rollback_on_error (df tbl : Frame) (oracle : Nat → Bool) (e : PyErr)
    (h : (load_data_to_db df (some tbl) oracle).err = some e) :
    (load_data_to_db df (some tbl) oracle).db = some tbl :=
  loadWith_error_rollback mkDeleteParam df tbl oracle e h

/-- Witness for C2: the first DELETE raises, the table is unchanged. -/
theorem C2_load_rollback_on_error_witness :
    (load_data_to_db dfSeason2425 (some tblTwoSeasons) (fun i => i == 0)).err =
      some .dbError ∧
    (load_data_to_db dfSeason2425 (some tblTwoSeasons) (fun i => i == 0)).db =
      some tblTwoSeasons :=
  ⟨by decide,
   C2_load_rollback_on_error dfSeason2425 tblTwoSeasons (fun i => i == 0)
     .dbError (by decide)⟩

/-- Claim C1: after a successful load of a non-empty cleaned set with a
season column into an existing table, the rows of the table for each
season present in the input are exactly this input's rows for that
season (so no rows of any prior call for that season survive), and a
second successful load of the same input leaves those per-season row
sets unchanged (idempotence per season). -/
theorem C1_load_replaces_per_season (df tbl tbl1 : Frame)
    (oracle oracle2 : Nat → Bool)
    (hne : df.rows ≠ [])
    (herr : (load_data_to_db df (some tbl) oracle).err = none)
    (hdb : (load_data_to_db df (some tbl) oracle).db = some tbl1) :
    (∀ s ∈ seasonsOfDf df,
      tbl1.rows.filter (fun r => decide (seasonOfRow tbl1.cols r = s)) =
        df.rows.filter (fun r => decide (seasonOfRow df.cols r = s))) ∧
    ((load_data_to_db df (some tbl1) oracle2).err = none →
      ∀ tbl2, (load_data_to_db df (some tbl1) oracle2).db = some tbl2 →
        ∀ s ∈ seasonsOfDf df,
          tbl2.rows.filter (fun r => decide (seasonOfRow tbl2.cols r = s)) =
            tbl1.rows.filter (fun r => decide (seasonOfRow tbl1.cols r = s))) := by
  constructor
  · intro s hs
    exact load_filter_mem mkDeleteParam df tbl tbl1 oracle hne herr hdb s hs
  · intro herr2 tbl2 hdb2 s hs
    rw [load_filter_mem mkDeleteParam df tbl1 tbl2 oracle2 hne herr2 hdb2 s hs,
        load_filter_mem mkDeleteParam df tbl tbl1 oracle hne herr hdb s hs]

-- the table state after loading dfSeason2425 into tblTwoSeasons
def tblAfterLoadA : Frame :=
  ⟨["hometeam", "season"],
   [[Val.vstr "Everton", Val.vstr "2324"],
    [Val.vstr "Chelsea", Val.vstr "2425"]]⟩

/-- Witness for C1 at a concrete load replacing season 2425. -/
theorem C1_load_replaces_per_season_witness :
    dfSeason2425.rows ≠ [] ∧
    (load_data_to_db dfSeason2425 (some tblTwoSeasons) noFailOracle).err = none ∧
    (load_data_to_db dfSeason2425 (some tblTwoSeasons) noFailOracle).db =
      some tblAfterLoadA ∧
    ((∀ s ∈ seasonsOfDf dfSeason2425,
      tblAfterLoadA.rows.filter
          (fun r => decide (seasonOfRow tblAfterLoadA.cols r = s)) =
        dfSeason2425.rows.filter
          (fun r => decide (seasonOfRow dfSeason2425.cols r = s))) ∧
    ((load_data_to_db dfSeason2425 (some tblAfterLoadA) noFailOracle).err = none →
      ∀ tbl2,
        (load_data_to_db dfSeason2425 (some tblAfterLoadA) noFailOracle).db =
          some tbl2 →
        ∀ s ∈ seasonsOfDf dfSeason2425,
          tbl2.rows.filter (fun r => decide (seasonOfRow tbl2.cols r = s)) =
            tblAfterLoadA.rows.filter
              (fun r => decide (seasonOfRow tblAfterLoadA.cols r = s)))) :=
  ⟨by decide, by decide, by decide,
   C1_load_replaces_per_season dfSeason2425 tblTwoSeasons tblAfterLoadA
     noFailOracle noFailOracle (by decide) (by decide) (by decide)⟩

/-- Claim C3: a successful load leaves every season not present in the
input untouched; in particular, loading rows for season A and then rows
for season B (with A not among B's seasons) leaves the season-A rows
installed by the first call exactly the first input's A-rows, and every
season in neither input is unaffected by either call. -/
theorem C3_partition_isolation (dfA dfB tbl tbl1 tbl2 : Frame)
    (o1 o2 : Nat → Bool)
    (hneA : dfA.rows ≠ []) (hneB : dfB.rows ≠ [])
    (h1e : (load_data_to_db dfA (some tbl) o1).err = none)
    (h1d : (load_data_to_db dfA (some tbl) o1).db = some tbl1)
    (h2e : (load_data_to_db dfB (some tbl1) o2).err = none)
    (h2d : (load_data_to_db dfB (some tbl1) o2).db = some tbl2) :
    (∀ s, s ∉ seasonsOfDf dfA →
      tbl1.rows.filter (fun r => decide (seasonOfRow tbl1.cols r = s)) =
        tbl.rows.filter (fun r => decide (seasonOfRow tbl.cols r = s))) ∧
    (∀ s ∈ seasonsOfDf dfA, s ∉ seasonsOfDf dfB →
      tbl2.rows.filter (fun r => decide (seasonOfRow tbl2.cols r = s)) =
        dfA.rows.filter (fun r => decide (seasonOfRow dfA.cols r = s))) ∧
    (∀ s, s ∉ seasonsOfDf dfA → s ∉ seasonsOfDf dfB →
      tbl2.rows.filter (fun r => decide (seasonOfRow tbl2.cols r = s)) =
        tbl.rows.filter (fun r => decide (seasonOfRow tbl.cols r = s))) := by
  refine ⟨?_, ?_, ?_⟩
  · intro s hsA
    exact load_filter_not_mem mkDeleteParam dfA tbl tbl1 o1 hneA h1e h1d s hsA
  · intro s hsA hsB
    rw [load_filter_not_mem mkDeleteParam dfB tbl1 tbl2 o2 hneB h2e h2d s hsB,
        load_filter_mem mkDeleteParam dfA tbl tbl1 o1 hneA h1e h1d s hsA]
  · intro s hsA hsB
    rw [load_filter_not_mem mkDeleteParam dfB tbl1 tbl2 o2 hneB h2e h2d s hsB,
        load_filter_not_mem mkDeleteParam dfA tbl tbl1 o1 hneA h1e h1d s hsA]

-- the table state after then loading dfSeason2324 into tblAfterLoadA
def tblAfterLoadB : Frame :=
  ⟨["hometeam", "season"],
   [[Val.vstr "Chelsea", Val.vstr "2425"],
    [Val.vstr "Leeds", Val.vstr "2324"]]⟩

/-- Witness for C3 at two concrete loads for different seasons. -/
theorem C3_partition_isolation_witness :
    dfSeason2425.rows ≠ [] ∧ dfSeason2324.rows ≠ [] ∧
    (load_data_to_db dfSeason2425 (some tblTwoSeasons) noFailOracle).err = none ∧
    (load_data_to_db dfSeason2425 (some tblTwoSeasons) noFailOracle).db =
      some tblAfterLoadA ∧
    (load_data_to_db dfSeason2324 (some tblAfterLoadA) noFailOracle).err = none ∧
    (load_data_to_db dfSeason2324 (some tblAfterLoadA) noFailOracle).db =
      some tblAfterLoadB ∧
    ((∀ s, s ∉ seasonsOfDf dfSeason2425 →
      tblAfterLoadA.rows.filter
          (fun r => decide (seasonOfRow tblAfterLoadA.cols r = s)) =
        tblTwoSeasons.rows.filter
          (fun r => decide (seasonOfRow tblTwoSeasons.cols r = s))) ∧
    (∀ s ∈ seasonsOfDf dfSeason2425, s ∉ seasonsOfDf dfSeason2324 →
      tblAfterLoadB.rows.filter
          (fun r => decide (seasonOfRow tblAfterLoadB.cols r = s)) =
        dfSeason2425.rows.filter
          (fun r => decide (seasonOfRow dfSeason2425.cols r = s))) ∧
    (∀ s, s ∉ seasonsOfDf dfSeason2425 → s ∉ seasonsOfDf dfSeason2324 →
      tblAfterLoadB.rows.filter
          (fun r => decide (seasonOfRow tblAfterLoadB.cols r = s)) =
        tblTwoSeasons.rows.filter
          (fun r => decide (seasonOfRow tblTwoSeasons.cols r = s)))) :=
  ⟨by decide, by decide, by decide, by decide, by decide, by decide,
   C3_partition_isolation dfSeason2425 dfSeason2324 tblTwoSeasons tblAfterLoadA
     tblAfterLoadB noFailOracle noFailOracle (by decide) (by decide) (by decide)
     (by decide) (by decide) (by decide)⟩

/-! ## Date-parser lemmas -/

-- a format parser is wellformed when its successes are valid in-range
-- Timestamps and its failures are exceptions the loop catches
def wfFmt (f : String → Except PyErr Date) : Prop :=
  ∀ s, (∀ dt, f s = .ok dt → dateOK dt = true) ∧
       (∀ e, f s = .error e → caughtByDateLoop e = true)

theorem bindE_ok {α β : Type} (x : Except PyErr α) (f : α → Except PyErr β) (b : β)
    (h : (x >>= f) = .ok b) : ∃ a, x = .ok a ∧ f a = .ok b := by
  cases x with
  | error e => exact Except.noConfusion h
  | ok a => exact ⟨a, rfl, h⟩

theorem bindE_error {α β : Type} (x : Except PyErr α) (f : α → Except PyErr β)
    (e : PyErr) (h : (x >>= f) = .error e) :
    x = .error e ∨ ∃ a, x = .ok a ∧ f a = .error e := by
  cases x with
  | error e2 =>
    left
    have h2 : (Except.error e2 : Except PyErr β) = .error e := h
    injection h2 with he
    rw [he]
  | ok a => exact Or.inr ⟨a, rfl, h⟩

theorem mkTimestamp_ok (y m d : Nat) (dt : Date)
    (h : mkTimestamp y m d = .ok dt) : dateOK dt = true := by
  unfold mkTimestamp at h
  by_cases hc : (validDate y m d && tsInBounds y m d) = true
  · rw [if_pos hc] at h
    cases h
    simpa [dateOK] using hc
  · rw [if_neg hc] at h
    exact Except.noConfusion h

theorem mkTimestamp_error (y m d : Nat) (e : PyErr)
    (h : mkTimestamp y m d = .error e) : caughtByDateLoop e = true := by
  unfold mkTimestamp at h
  by_cases hc : (validDate y m d && tsInBounds y m d) = true
  · rw [if_pos hc] at h
    exact Except.noConfusion h
  · rw [if_neg hc] at h
    injection h with he
    rw [← he]
    rfl

theorem readDayTok_error (t : List Char) (e : PyErr)
    (h : readDayTok t = .error e) : caughtByDateLoop e = true := by
  unfold readDayTok at h
  split at h
  · exact Except.noConfusion h
  · injection h with he
    rw [← he]
    rfl

theorem readMonthTok_error (t : List Char) (e : PyErr)
    (h : readMonthTok t = .error e) : caughtByDateLoop e = true := by
  unfold readMonthTok at h
  split at h
  · exact Except.noConfusion h
  · injection h with he
    rw [← he]
    rfl

theorem readY4Tok_error (t : List Char) (e : PyErr)
    (h : readY4Tok t = .error e) : caughtByDateLoop e = true := by
  unfold readY4Tok at h
  split at h
  · exact Except.noConfusion h
  · injection h with he
    rw [← he]
    rfl

theorem readY2Tok_error (t : List Char) (e : PyErr)
    (h : readY2Tok t = .error e) : caughtByDateLoop e = true := by
  unfold readY2Tok at h
  split at h
  · exact Except.noConfusion h
  · injection h with he
    rw [← he]
    rfl

theorem wf_strptimeDMY (sep : Char) (yTok : List Char → Except PyErr Nat)
    (hyE : ∀ t e, yTok t = .error e → caughtByDateLoop e = true) :
    wfFmt (strptimeDMY sep yTok) := by
  intro s
  unfold strptimeDMY
  rcases splitOnChar sep s.data with _ | ⟨a, _ | ⟨b, _ | ⟨c, _ | ⟨d4, t⟩⟩⟩⟩
  · exact ⟨fun dt h => Except.noConfusion h,
      fun e h => by injection h with he; rw [← he]; rfl⟩
  · exact ⟨fun dt h => Except.noConfusion h,
      fun e h => by injection h with he; rw [← he]; rfl⟩
  · exact ⟨fun dt h => Except.noConfusion h,
      fun e h => by injection h with he; rw [← he]; rfl⟩
  · constructor
    · intro dt h
      obtain ⟨dv, hd, h⟩ := bindE_ok _ _ _ h
      obtain ⟨mv, hm, h⟩ := bindE_ok _ _ _ h
      obtain ⟨yv, hy, h⟩ := bindE_ok _ _ _ h
      exact mkTimestamp_ok yv mv dv dt h
    · intro e h
      rcases bindE_error _ _ _ h with hd | ⟨dv, hd, h⟩
      · exact readDayTok_error a e hd
      rcases bindE_error _ _ _ h with hm | ⟨mv, hm, h⟩
      · exact readMonthTok_error b e hm
      rcases bindE_error _ _ _ h with hy | ⟨yv, hy, h⟩
      · exact hyE c e hy
      exact mkTimestamp_error yv mv dv e h
  · exact ⟨fun dt h => Except.noConfusion h,
      fun e h => by injection h with he; rw [← he]; rfl⟩

theorem wf_strptimeYMD (sep : Char) : wfFmt (strptimeYMD sep) := by
  intro s
  unfold strptimeYMD
  rcases splitOnChar sep s.data with _ | ⟨a, _ | ⟨b, _ | ⟨c, _ | ⟨d4, t⟩⟩⟩⟩
  · exact ⟨fun dt h => Except.noConfusion h,
      fun e h => by injection h with he; rw [← he]; rfl⟩
  · exact ⟨fun dt h => Except.noConfusion h,
      fun e h => by injection h with he; rw [← he]; rfl⟩
  · exact ⟨fun dt h => Except.noConfusion h,
      fun e h => by injection h with he; rw [← he]; rfl⟩
  · constructor
    · intro dt h
      obtain ⟨yv, hy, h⟩ := bindE_ok _ _ _ h
      obtain ⟨mv, hm, h⟩ := bindE_ok _ _ _ h
      obtain ⟨dv, hd, h⟩ := bindE_ok _ _ _ h
      exact mkTimestamp_ok yv mv dv dt h
    · intro e h
      rcases bindE_error _ _ _ h with hy | ⟨yv, hy, h⟩
      · exact readY4Tok_error a e hy
      rcases bindE_error _ _ _ h with hm | ⟨mv, hm, h⟩
      · exact readMonthTok_error b e hm
      rcases bindE_error _ _ _ h with hd | ⟨dv, hd, h⟩
      · exact readDayTok_error c e hd
      exact mkTimestamp_error yv mv dv e h
  · exact ⟨fun dt h => Except.noConfusion h,
      fun e h => by injection h with he; rw [← he]; rfl⟩

theorem wf_dateFormats : ∀ f ∈ dateFormats, wfFmt f := by
  intro f hf
  simp only [dateFormats, List.mem_cons, List.not_mem_nil, or_false] at hf
  rcases hf with rfl | rfl | rfl | rfl | rfl
  · exact wf_strptimeDMY '/' readY4Tok readY4Tok_error
  · exact wf_strptimeDMY '/' readY2Tok readY2Tok_error
  · exact wf_strptimeYMD '-'
  · exact wf_strptimeDMY '-' readY4Tok readY4Tok_error
  · exact wf_strptimeDMY '-' readY2Tok readY2Tok_error

theorem validDate_iff (y m d : Nat) :
    validDate y m d = true ↔
      (1 ≤ y ∧ y ≤ 9999 ∧ 1 ≤ m ∧ m ≤ 12 ∧ 1 ≤ d ∧ d ≤ daysInMonth y m) := by
  simp [validDate, Bool.and_eq_true, and_assoc]

theorem tsInBounds_iff (y m d : Nat) :
    tsInBounds y m d = true ↔
      ((1677 < y ∨ (y = 1677 ∧ (9 < m ∨ (m = 9 ∧ 22 ≤ d)))) ∧
       (y < 2262 ∨ (y = 2262 ∧ (m < 4 ∨ (m = 4 ∧ d ≤ 11))))) := by
  simp [tsInBounds, Bool.and_eq_true, Bool.or_eq_true]

theorem isLeap_iff (y : Nat) :
    isLeap y = true ↔ ((y % 4 = 0 ∧ y % 100 ≠ 0) ∨ y % 400 = 0) := by
  simp [isLeap, Bool.and_eq_true, Bool.or_eq_true]

theorem daysInMonth_shift_le (y m : Nat) (h1677 : 1677 ≤ y) (h1950 : y < 1950) :
    daysInMonth y m ≤ daysInMonth (y + 100) m := by
  unfold daysInMonth
  by_cases hm : m = 2
  · rw [if_pos hm, if_pos hm]
    by_cases hly : isLeap y = true
    · have h2 : isLeap (y + 100) = true := by
        rw [isLeap_iff] at hly ⊢
        omega
      rw [hly, h2]
    · have hly' : isLeap y = false := by
        cases hb : isLeap y
        · rfl
        · exact absurd hb hly
      rw [hly']
      cases hb : isLeap (y + 100)
      · decide
      · decide
  · rw [if_neg hm, if_neg hm]

theorem dateOK_centuryShift (y m d : Nat)
    (hok : dateOK ⟨y, m, d⟩ = true) (hy : y < 1950) :
    (validDate (y + 100) m d && tsInBounds (y + 100) m d) = true := by
  rw [dateOK] at hok
  rw [Bool.and_eq_true] at hok ⊢
  obtain ⟨hv, hb⟩ := hok
  have hv2 : validDate y m d = true := hv
  have hb2 : tsInBounds y m d = true := hb
  rw [tsInBounds_iff] at hb2
  have h1677 : 1677 ≤ y := by omega
  have hdm := daysInMonth_shift_le y m h1677 hy
  constructor
  · rw [validDate_iff] at hv2 ⊢
    omega
  · rw [tsInBounds_iff]
    omega

theorem tryFormat_ok_eq (f : String → Except PyErr Date) (s : String) (dt : Date)
    (hwf : wfFmt f) (hraw : f s = .ok dt) :
    tryFormat f s = .ok (centuryShift dt) := by
  show (f s >>= fun dt2 => centuryAdjustE dt2) = .ok (centuryShift dt)
  rw [hraw]
  show centuryAdjustE dt = .ok (centuryShift dt)
  unfold centuryAdjustE centuryShift
  by_cases hy : dt.year < 1950
  · rw [if_pos hy, if_pos hy]
    unfold replaceYear
    have hok := (hwf s).1 dt hraw
    obtain ⟨y, m, d⟩ := dt
    have hc := dateOK_centuryShift y m d hok (by simpa using hy)
    rw [Bool.and_eq_true] at hc
    rw [if_pos (by rw [Bool.and_eq_true]; exact hc)]
  · rw [if_neg hy, if_neg hy]

theorem tryFormat_ok_dateOK (f : String → Except PyErr Date) (s : String) (dt : Date)
    (hwf : wfFmt f) (h : tryFormat f s = .ok dt) : dateOK dt = true := by
  have h2 : (f s >>= fun dt2 => centuryAdjustE dt2) = .ok dt := h
  obtain ⟨d0, hf, hc⟩ := bindE_ok _ _ _ h2
  have hok0 := (hwf s).1 d0 hf
  unfold centuryAdjustE at hc
  by_cases hy : d0.year < 1950
  · rw [if_pos hy] at hc
    unfold replaceYear at hc
    by_cases hcond : (validDate (d0.year + 100) d0.month d0.day &&
        tsInBounds (d0.year + 100) d0.month d0.day) = true
    · rw [if_pos hcond] at hc
      cases hc
      simpa [dateOK] using hcond
    · rw [if_neg hcond] at hc
      exact Except.noConfusion hc
  · rw [if_neg hy] at hc
    cases hc
    exact hok0

theorem tryFormat_error_caught (f : String → Except PyErr Date) (s : String)
    (e : PyErr) (hwf : wfFmt f) (h : tryFormat f s = .error e) :
    caughtByDateLoop e = true := by
  have h2 : (f s >>= fun dt2 => centuryAdjustE dt2) = .error e := h
  rcases bindE_error _ _ _ h2 with hf | ⟨d0, hf, hc⟩
  · exact (hwf s).2 e hf
  · unfold centuryAdjustE at hc
    by_cases hy : d0.year < 1950
    · rw [if_pos hy] at hc
      unfold replaceYear at hc
      by_cases hcond : (validDate (d0.year + 100) d0.month d0.day &&
          tsInBounds (d0.year + 100) d0.month d0.day) = true
      · rw [if_pos hcond] at hc
        exact Except.noConfusion hc
      · rw [if_neg hcond] at hc
        injection hc with he
        rw [← he]
        rfl
    · rw [if_neg hy] at hc
      exact Except.noConfusion hc

theorem coerceFallback_ok (s : String) (dt : Date)
    (h : coerceFallback s = some dt) : dateOK dt = true := by
  unfold coerceFallback at h
  cases hf : strptimeYMD '/' s with
  | error e =>
    rw [hf] at h
    exact Option.noConfusion h
  | ok d2 =>
    rw [hf] at h
    cases h
    exact (wf_strptimeYMD '/' s).1 dt hf

theorem tryFormatsLoop_total (fs : List (String → Except PyErr Date))
    (hwf : ∀ f ∈ fs, wfFmt f) (s : String) :
    ∃ r, tryFormatsLoop fs s = .ok r ∧ ∀ dt, r = some dt → dateOK dt = true := by
  induction fs with
  | nil =>
    exact ⟨coerceFallback s, rfl, fun dt h => coerceFallback_ok s dt h⟩
  | cons f fs ih =>
    have hwf_f : wfFmt f := hwf f (List.mem_cons_self f fs)
    have hwf2 : ∀ g ∈ fs, wfFmt g := fun g hg => hwf g (List.mem_cons_of_mem f hg)
    cases htf : tryFormat f s with
    | ok dt =>
      refine ⟨some dt, ?_, ?_⟩
      · rw [tryFormatsLoop, htf]
      · intro dt2 hdt
        cases hdt
        exact tryFormat_ok_dateOK f s dt hwf_f htf
    | error e =>
      obtain ⟨r, hr, hok⟩ := ih hwf2
      refine ⟨r, ?_, hok⟩
      simp only [tryFormatsLoop, htf,
        tryFormat_error_caught f s e hwf_f htf, if_true]
      exact hr

/-- Claim C6: parse_match_date is total: for every input (missing/null
or any string, including empty, whitespace and garbage) it raises no
exception; it returns either NaT (none) or a valid in-range date. -/
theorem C6_parse_match_date_total (x : Option String) :
    ∃ r, parse_match_date x = .ok r ∧ ∀ dt, r = some dt → dateOK dt = true := by
  cases x with
  | none => exact ⟨none, rfl, fun dt h => Option.noConfusion h⟩
  | some s => exact tryFormatsLoop_total dateFormats wf_dateFormats s

theorem rawFirst_eq_loop (fs : List (String → Except PyErr Date))
    (hwf : ∀ f ∈ fs, wfFmt f) (s : String) (dt : Date)
    (h : rawFirstParse fs s = some dt) :
    tryFormatsLoop fs s = .ok (some (centuryShift dt)) := by
  induction fs with
  | nil => exact Option.noConfusion h
  | cons f fs ih =>
    have hwf_f : wfFmt f := hwf f (List.mem_cons_self f fs)
    have hwf2 : ∀ g ∈ fs, wfFmt g := fun g hg => hwf g (List.mem_cons_of_mem f hg)
    cases hf : f s with
    | ok d0 =>
      have hdt : d0 = dt := by
        rw [rawFirstParse, hf] at h
        cases h
        rfl
      subst hdt
      simp only [tryFormatsLoop, tryFormat_ok_eq f s d0 hwf_f hf]
    | error e =>
      have h2 : rawFirstParse fs s = some dt := by
        rw [rawFirstParse, hf] at h
        exact h
      have htf : tryFormat f s = .error e := by
        show (f s >>= fun dt2 => centuryAdjustE dt2) = .error e
        rw [hf]
        rfl
      simp only [tryFormatsLoop, htf,
        tryFormat_error_caught f s e hwf_f htf, if_true]
      exact ih hwf2 h2

/-- Claim C7: whenever a date string is successfully parsed by one of
the five fixed priority layouts (first success, before the century
rule), the value parse_match_date returns is that date with the century
rule applied: a parsed year below 1950 comes back shifted forward by
100 years, a parsed year of 1950 or more comes back unchanged. -/
theorem C7_century_disambiguation (s : String) (dt : Date)
    (h : rawFirstParse dateFormats s = some dt) :
    parse_match_date (some s) = .ok (some (centuryShift dt)) ∧
    (dt.year < 1950 → (centuryShift dt).year = dt.year + 100) ∧
    (1950 ≤ dt.year → centuryShift dt = dt) := by
  refine ⟨?_, ?_, ?_⟩
  · show tryFormatsLoop dateFormats s = _
    exact rawFirst_eq_loop dateFormats wf_dateFormats s dt h
  · intro hy
    unfold centuryShift
    rw [if_pos hy]
  · intro hy
    unfold centuryShift
    rw [if_neg (by omega)]

/-- Witness for C7: "15/08/1905" parses under the first layout with
year 1905 and comes back as 2005-08-15. -/
theorem C7_century_disambiguation_witness :
    rawFirstParse dateFormats "15/08/1905" = some ⟨1905, 8, 15⟩ ∧
    parse_match_date (some "15/08/1905") = .ok (some (centuryShift ⟨1905, 8, 15⟩)) ∧
    centuryShift ⟨1905, 8, 15⟩ = ⟨2005, 8, 15⟩ :=
  ⟨by decide,
   (C7_century_disambiguation "15/08/1905" ⟨1905, 8, 15⟩ (by decide)).1,
   by decide⟩

/-! ## Cleaning lemmas: projection and first-occurrence dedup -/

theorem colIdx_none (cs : List String) (n : String) (h : colIdx cs n = none) :
    n ∉ cs := by
  induction cs with
  | nil => simp
  | cons c cs ih =>
    rw [colIdx] at h
    by_cases hc : c = n
    · rw [if_pos hc] at h
      exact Option.noConfusion h
    · rw [if_neg hc] at h
      cases hj : colIdx cs n with
      | none =>
        intro hmem
        rcases List.mem_cons.mp hmem with hcn | hm
        · exact hc hcn.symm
        · exact ih hj hm
      | some j =>
        rw [hj] at h
        exact Option.noConfusion h

theorem cellByName_proj (cols required : List String) (r : List Val) (n : String)
    (hn : n ∈ required) :
    cellByName required (projRow cols required r) n = cellByName cols r n := by
  induction required with
  | nil => cases hn
  | cons c cs ih =>
    by_cases hc : c = n
    · subst hc
      have h0 : colIdx (c :: cs) c = some 0 := by rw [colIdx, if_pos rfl]
      simp only [cellByName, h0, projRow, List.map_cons, List.getD]
      rfl
    · have hn2 : n ∈ cs := by
        rcases List.mem_cons.mp hn with hcn | hm
        · exact absurd hcn.symm hc
        · exact hm
      cases hj : colIdx cs n with
      | none => exact absurd hn2 (colIdx_none cs n hj)
      | some j =>
        have hcons : colIdx (c :: cs) n = some (j + 1) := by
          rw [colIdx, if_neg hc, hj]
          rfl
        have hih := ih hn2
        simp only [cellByName, hj] at hih
        simp only [cellByName, hcons, projRow, List.map_cons]
        rw [← hih]
        rfl

theorem rowKeyV_proj (cols required : List String) (r : List Val)
    (hkeys : ∀ n ∈ keyNames, n ∈ required) :
    rowKeyV required (projRow cols required r) = rowKeyV cols r := by
  unfold rowKeyV
  exact List.map_congr_left (fun n hn => cellByName_proj cols required r n (hkeys n hn))

theorem ddAux_mem (k : List Val → List Val) :
    ∀ (l : List (List Val)) (seen : List (List Val)) (r : List Val),
      r ∈ dropDupsByKeyAux k seen l → r ∈ l := by
  intro l
  induction l with
  | nil => intro seen r h; exact absurd h (List.not_mem_nil r)
  | cons a t ih =>
    intro seen r h
    rw [dropDupsByKeyAux] at h
    by_cases ha : k a ∈ seen
    · rw [if_pos ha] at h
      exact List.mem_cons_of_mem a (ih seen r h)
    · rw [if_neg ha] at h
      rcases List.mem_cons.mp h with rfl | h2
      · exact List.mem_cons_self _ _
      · exact List.mem_cons_of_mem a (ih (k a :: seen) r h2)

theorem ddAux_not_seen (k : List Val → List Val) :
    ∀ (l : List (List Val)) (seen : List (List Val)) (r : List Val),
      r ∈ dropDupsByKeyAux k seen l → k r ∉ seen := by
  intro l
  induction l with
  | nil => intro seen r h; exact absurd h (List.not_mem_nil r)
  | cons a t ih =>
    intro seen r h
    rw [dropDupsByKeyAux] at h
    by_cases ha : k a ∈ seen
    · rw [if_pos ha] at h
      exact ih seen r h
    · rw [if_neg ha] at h
      rcases List.mem_cons.mp h with rfl | h2
      · exact ha
      · have := ih (k a :: seen) r h2
        exact fun hc => this (List.mem_cons_of_mem (k a) hc)

theorem ddAux_nodup (k : List Val → List Val) :
    ∀ (l : List (List Val)) (seen : List (List Val)),
      ((dropDupsByKeyAux k seen l).map k).Nodup := by
  intro l
  induction l with
  | nil => intro seen; simp [dropDupsByKeyAux]
  | cons a t ih =>
    intro seen
    rw [dropDupsByKeyAux]
    by_cases ha : k a ∈ seen
    · rw [if_pos ha]
      exact ih seen
    · rw [if_neg ha]
      rw [List.map_cons, List.nodup_cons]
      constructor
      · intro hcon
        rcases List.mem_map.mp hcon with ⟨r, hr, hkr⟩
        exact ddAux_not_seen k t (k a :: seen) r hr
          (hkr ▸ List.mem_cons_self (k a) seen)
      · exact ih (k a :: seen)

theorem ddAux_find (k : List Val → List Val) :
    ∀ (l : List (List Val)) (seen : List (List Val)) (r : List Val),
      r ∈ dropDupsByKeyAux k seen l →
      l.find? (fun x => decide (k x = k r)) = some r := by
  intro l
  induction l with
  | nil => intro seen r h; exact absurd h (List.not_mem_nil r)
  | cons a t ih =>
    intro seen r h
    rw [dropDupsByKeyAux] at h
    by_cases ha : k a ∈ seen
    · rw [if_pos ha] at h
      have hne : ¬ k a = k r := by
        intro hcon
        exact ddAux_not_seen k t seen r h (hcon ▸ ha)
      rw [List.find?_cons_of_neg _ (by simpa using hne)]
      exact ih seen r h
    · rw [if_neg ha] at h
      rcases List.mem_cons.mp h with rfl | h2
      · rw [List.find?_cons_of_pos _ (by simp)]
      · have hnotin := ddAux_not_seen k t (k a :: seen) r h2
        have hne : ¬ k a = k r := by
          intro hcon
          exact hnotin (hcon ▸ List.mem_cons_self (k a) seen)
        rw [List.find?_cons_of_neg _ (by simpa using hne)]
        exact ih (k a :: seen) r h2

theorem ddAux_complete (k : List Val → List Val) :
    ∀ (l : List (List Val)) (seen : List (List Val)) (x : List Val),
      x ∈ l → k x ∉ seen →
      ∃ r, r ∈ dropDupsByKeyAux k seen l ∧ k r = k x := by
  intro l
  induction l with
  | nil => intro seen x hx; exact absurd hx (List.not_mem_nil x)
  | cons a t ih =>
    intro seen x hx hns
    rw [dropDupsByKeyAux]
    by_cases ha : k a ∈ seen
    · rw [if_pos ha]
      rcases List.mem_cons.mp hx with rfl | h2
      · exact absurd ha hns
      · exact ih seen x h2 hns
    · rw [if_neg ha]
      rcases List.mem_cons.mp hx with rfl | h2
      · exact ⟨_, List.mem_cons_self _ _, rfl⟩
      · by_cases hka : k x = k a
        · exact ⟨a, List.mem_cons_self a _, hka.symm⟩
        · have hns2 : k x ∉ (k a :: seen) := by
            intro hc
            rcases List.mem_cons.mp hc with hc1 | hc2
            · exact hka hc1
            · exact hns hc2
          obtain ⟨r, hr, hkr⟩ := ih (k a :: seen) x h2 hns2
          exact ⟨r, List.mem_cons_of_mem a hr, hkr⟩

/-- Claim C9: on every input that cleans successfully, the rows of the
output of _clean_data carry pairwise distinct identity tuples (date,
hometeam, awayteam, season, div); each output row is the projection of
the first-encountered surviving row with its identity tuple (find? of
the survivor list); and every surviving row's tuple is represented in
the output — in particular an input with duplicate tuples yields
exactly one output row per unique tuple, the first occurrence. -/
theorem C9_dedup_first_occurrence (required : List String) (season : String)
    (df out surv : Frame)
    (hclean : _clean_data required season df = .ok out)
    (hsurv : survivorFrameE season df = .ok surv)
    (hkeys : ∀ n ∈ keyNames, n ∈ required) :
    ((out.rows.map (fun q => rowKeyV required q)).Nodup) ∧
    (∀ q ∈ out.rows, ∃ r, r ∈ surv.rows ∧
        q = projRow surv.cols required r ∧
        surv.rows.find? (fun x =>
          decide (rowKeyV surv.cols x = rowKeyV surv.cols r)) = some r) ∧
    (∀ r ∈ surv.rows, ∃ q ∈ out.rows,
        rowKeyV required q = rowKeyV surv.cols r) := by
  have hne : ¬ df.rows.length = 0 := by
    intro h0
    rw [_clean_data, if_pos h0] at hclean
    exact Except.noConfusion hclean
  rw [_clean_data, if_neg hne, hsurv] at hclean
  have hclean2 : (dedupStep surv >>= fun deduped =>
      checkRequired required deduped >>= fun _ =>
        Except.ok (projectStep required deduped)) = .ok out := hclean
  cases hall : keyNames.all (fun n => (colIdx surv.cols n).isSome) with
  | false =>
    exfalso
    have hds : dedupStep surv =
        .error (.keyError "drop_duplicates subset column missing") := by
      rw [dedupStep, if_neg (by rw [hall]; exact Bool.false_ne_true)]
    rw [hds] at hclean2
    exact Except.noConfusion hclean2
  | true =>
    have hds : dedupStep surv =
        .ok ⟨surv.cols, dropDupsByKey (rowKeyV surv.cols) surv.rows⟩ := by
      rw [dedupStep, if_pos hall]
    rw [hds] at hclean2
    have hclean3 : (checkRequired required
        ⟨surv.cols, dropDupsByKey (rowKeyV surv.cols) surv.rows⟩ >>= fun _ =>
        Except.ok (projectStep required
          ⟨surv.cols, dropDupsByKey (rowKeyV surv.cols) surv.rows⟩)) =
        .ok out := hclean2
    obtain ⟨u, hcr, hout⟩ := bindE_ok _ _ _ hclean3
    have hout2 : out = projectStep required
        ⟨surv.cols, dropDupsByKey (rowKeyV surv.cols) surv.rows⟩ := by
      injection hout with he
      exact he.symm
    subst hout2
    refine ⟨?_, ?_, ?_⟩
    · show ((((dropDupsByKey (rowKeyV surv.cols) surv.rows).map
        (fun r => projRow surv.cols required r))).map
        (fun q => rowKeyV required q)).Nodup
      rw [List.map_map]
      have hcong : (dropDupsByKey (rowKeyV surv.cols) surv.rows).map
          ((fun q => rowKeyV required q) ∘ (fun r => projRow surv.cols required r)) =
          (dropDupsByKey (rowKeyV surv.cols) surv.rows).map (rowKeyV surv.cols) :=
        List.map_congr_left (fun r _ => rowKeyV_proj surv.cols required r hkeys)
      rw [hcong]
      exact ddAux_nodup (rowKeyV surv.cols) surv.rows []
    · intro q hq
      rcases List.mem_map.mp hq with ⟨r, hr, hqr⟩
      refine ⟨r, ddAux_mem _ surv.rows [] r hr, hqr.symm, ?_⟩
      exact ddAux_find (rowKeyV surv.cols) surv.rows [] r hr
    · intro r hr
      obtain ⟨r2, hr2, hk2⟩ := ddAux_complete (rowKeyV surv.cols) surv.rows [] r
        hr (List.not_mem_nil _)
      refine ⟨projRow surv.cols required r2, List.mem_map_of_mem _ hr2, ?_⟩
      rw [rowKeyV_proj surv.cols required r2 hkeys]
      exact hk2

instance instDecEqExceptPyErr {α : Type} [DecidableEq α] :
    DecidableEq (Except PyErr α) := fun a b =>
  match a, b with
  | .error e1, .error e2 =>
    match decEq e1 e2 with
    | .isTrue h => .isTrue (h ▸ rfl)
    | .isFalse h => .isFalse (fun hc => h (by injection hc))
  | .error _, .ok _ => .isFalse (fun hc => Except.noConfusion hc)
  | .ok _, .error _ => .isFalse (fun hc => Except.noConfusion hc)
  | .ok a1, .ok a2 =>
    match decEq a1 a2 with
    | .isTrue h => .isTrue (h ▸ rfl)
    | .isFalse h => .isFalse (fun hc => h (by injection hc))

-- a raw input frame with a duplicated fixture (rows 1 and 2 share the
-- identity tuple) used by the cleaning witnesses
def dfRawW : Frame :=
  ⟨["Date", "HomeTeam", "AwayTeam", "Div"],
   [[Val.vdate ⟨2024, 8, 15⟩, Val.vstr "Arsenal", Val.vstr "Brighton", Val.vstr "E0"],
    [Val.vdate ⟨2024, 8, 15⟩, Val.vstr "Arsenal", Val.vstr "Brighton", Val.vstr "E0"],
    [Val.vdate ⟨2024, 8, 15⟩, Val.vstr "Arsenal", Val.vstr "Chelsea", Val.vstr "E0"]]⟩

-- the surviving rows of dfRawW (normalized, parsed, season-stamped)
def survW : Frame :=
  ⟨["date", "hometeam", "awayteam", "div", "season"],
   [[Val.vdate ⟨2024, 8, 15⟩, Val.vstr "Arsenal", Val.vstr "Brighton",
     Val.vstr "E0", Val.vstr "2425"],
    [Val.vdate ⟨2024, 8, 15⟩, Val.vstr "Arsenal", Val.vstr "Brighton",
     Val.vstr "E0", Val.vstr "2425"],
    [Val.vdate ⟨2024, 8, 15⟩, Val.vstr "Arsenal", Val.vstr "Chelsea",
     Val.vstr "E0", Val.vstr "2425"]]⟩

-- the cleaned output of dfRawW under the identity-tuple contract
def outW : Frame :=
  ⟨["date", "hometeam", "awayteam", "season", "div"],
   [[Val.vdate ⟨2024, 8, 15⟩, Val.vstr "Arsenal", Val.vstr "Brighton",
     Val.vstr "2425", Val.vstr "E0"],
    [Val.vdate ⟨2024, 8, 15⟩, Val.vstr "Arsenal", Val.vstr "Chelsea",
     Val.vstr "2425", Val.vstr "E0"]]⟩

/-- Witness for C9 on a concrete duplicated input. -/
theorem C9_dedup_first_occurrence_witness :
    _clean_data keyNames "2425" dfRawW = .ok outW ∧
    survivorFrameE "2425" dfRawW = .ok survW ∧
    (∀ n ∈ keyNames, n ∈ keyNames) ∧
    (((outW.rows.map (fun q => rowKeyV keyNames q)).Nodup) ∧
     (∀ q ∈ outW.rows, ∃ r, r ∈ survW.rows ∧
         q = projRow survW.cols keyNames r ∧
         survW.rows.find? (fun x =>
           decide (rowKeyV survW.cols x = rowKeyV survW.cols r)) = some r) ∧
     (∀ r ∈ survW.rows, ∃ q ∈ outW.rows,
         rowKeyV keyNames q = rowKeyV survW.cols r)) :=
  ⟨by decide, by decide, fun n hn => hn,
   C9_dedup_first_occurrence keyNames "2425" dfRawW outW survW
     (by decide) (by decide) (fun n hn => hn)⟩

/-! ## The caller's frame is never mutated by _clean_data -/

theorem readRef_write_other (i j : Nat) (hij : i ≠ j) (H : Heap) (f : Frame) :
    readRef (writeRef H i f) j = readRef H j := by
  unfold readRef writeRef
  rw [List.getD_eq_getElem?_getD, List.getD_eq_getElem?_getD,
    List.getElem?_set_ne hij]

theorem readRef_append_left (j : Nat) (h : Heap) (hj : j < h.length)
    (l : List Frame) : readRef (h ++ l) j = readRef h j := by
  unfold readRef
  rw [List.getD_eq_getElem?_getD, List.getD_eq_getElem?_getD,
    List.getElem?_append, if_pos hj]

/-- Claim C10: _clean_data works on a copy: for every heap and every
reference to the caller's DataFrame, the frame at that reference after
the run equals the frame before it, whether the run returns a cleaned
frame or raises at any of its failure points — all normalization, date
parsing, row dropping, season stamping, deduplication and projection
happen on the freshly allocated copy. -/
theorem C10_clean_preserves_caller_frame (required : List String) (season : String)
    (h : Heap) (dfRef : Nat) (hlt : dfRef < h.length) :
    readRef (cleanHeapProg required season h dfRef).2 dfRef = readRef h dfRef := by
  have hne : List.length h ≠ dfRef := by omega
  simp only [cleanHeapProg]
  by_cases h0 : (readRef h dfRef).rows.length = 0
  · rw [if_pos h0]
  · rw [if_neg h0]
    split
    · simp [readRef_write_other (List.length h) dfRef hne,
        readRef_append_left dfRef h hlt]
    · split
      · simp [readRef_write_other (List.length h) dfRef hne,
          readRef_append_left dfRef h hlt]
      · split
        · simp [readRef_write_other (List.length h) dfRef hne,
            readRef_append_left dfRef h hlt]
        · simp [readRef_write_other (List.length h) dfRef hne,
            readRef_append_left dfRef h hlt]

/-- Witness for C10: a concrete heap holding one caller frame. -/
theorem C10_clean_preserves_caller_frame_witness :
    0 < List.length [dfRawW] ∧
    readRef (cleanHeapProg keyNames "2425" [dfRawW] 0).2 0 = readRef [dfRawW] 0 :=
  ⟨by decide,
   C10_clean_preserves_caller_frame keyNames "2425" [dfRawW] 0 (by decide)⟩

end EPL
